import Mathlib

/-
Verification of the wheel-variants schema validator (src/schema.py).

The Python module defines three pydantic models (DefaultPriorities, Provider,
VariantsSchema) whose field validators enforce character-class patterns and
uniqueness constraints, one cross-field rule on Provider, and a JSON-schema
emitter.  This file shallowly embeds the data model, the validators, the
document parser (pydantic `model_validate` on mapping input with aliases and
ignored extra keys), the serializer (`model_dump(by_alias=True)`), and the
schema emitter (`json.dumps` with indentation), and proves the claimed
properties about them.

Conventions:
  * Python `dict[str, X]` values are embedded as association lists
    `List (String × X)` preserving insertion order (Python 3.7+ dicts are
    ordered); `len(v) != len(set(v))` is embedded as `¬ List.Nodup v`.
  * Fallible validation is embedded in `Except VErr`; a validator returns its
    argument unchanged on success exactly as the Python validators do.
  * Python regular expressions are embedded by their semantics under
    `re.match`: the match is anchored at the start of the string only, and a
    final `$` matches at the end of the string or just before a newline that
    is the last character (CPython `re` semantics for `$` without MULTILINE).
-/

/-! ## Character classes used by the validators -/

/-- Character class `[a-z0-9_]` (namespace / feature pattern). -/
def lowerNsChar (c : Char) : Bool :=
  ('a' ≤ c && c ≤ 'z') || ('0' ≤ c && c ≤ '9') || c = '_'

/-- Character class `[A-Za-z0-9_]` (provider-key pattern). -/
def provKeyChar (c : Char) : Bool :=
  ('A' ≤ c && c ≤ 'Z') || lowerNsChar c

/-- Character class `[a-z0-9_.]` (property / variant value pattern). -/
def dotChar (c : Char) : Bool :=
  lowerNsChar c || c = '.'

/-- Character class `[a-zA-Z0-9._]` (plugin-api pattern). -/
def apiChar (c : Char) : Bool :=
  provKeyChar c || c = '.'

/-! ## Python `re.match` semantics for the patterns of schema.py

`re.match(p, s)` anchors only at the start of `s`.  A trailing `$` in the
pattern matches at the end of the string, or just before a newline if that
newline is the last character of the string.  None of the character classes
above contain a newline, so a pattern `^C+$` matches `s` iff `s` is a
nonempty all-`C` string, or such a string followed by one final newline. -/

/-- Python `re.match(r"^C+$", s)` for a newline-free character class `C`. -/
def reMatchPlus (isC : Char → Bool) (s : String) : Bool :=
  let l := s.data
  (!l.isEmpty && l.all isC) ||
    (l.getLast? == some '\n' && (!l.dropLast.isEmpty && l.dropLast.all isC))

/-- Python `re.match(r"^[a-z0-9_.]{1,16}$", s)` (the variant-label pattern of
`validate_variants`, line 272 of schema.py): between 1 and 16 class
characters reaching the end of the string, or reaching a final newline. -/
def reMatchLabel (s : String) : Bool :=
  let l := s.data
  (1 ≤ l.length && l.length ≤ 16 && l.all dotChar) ||
    (l.getLast? == some '\n' &&
      (1 ≤ l.dropLast.length && l.dropLast.length ≤ 16 && l.dropLast.all dotChar))

/-- Python `re.match` for the plugin-api pattern
`^([a-zA-Z0-9._]+ *: *[a-zA-Z0-9._]+)|([a-zA-Z0-9._]+)$` (line 163 of
schema.py).  The alternation binds loosely: the first branch carries only the
`^` anchor, so it is a prefix match of `X+ *: *X+` (the rest of the string is
unconstrained); the second branch carries the `$`.  The classes `X`, space
and `:` are pairwise disjoint, so the first branch is decided by a greedy
scan. -/
def reMatchPluginApi (s : String) : Bool :=
  let l := s.data
  let xs := l.takeWhile apiChar
  let r1 := (l.dropWhile apiChar).dropWhile (· = ' ')
  let branch1 :=
    !xs.isEmpty &&
      (match r1 with
       | ':' :: r2 =>
         match r2.dropWhile (· = ' ') with
         | c :: _ => apiChar c
         | [] => false
       | _ => false)
  branch1 || reMatchPlus apiChar s

/-! ## Validation errors

Each constructor corresponds to one `raise ValueError(...)` site (or one
pydantic core failure kind) in schema.py. -/

inductive VErr where
  | nsPattern (item : String)
  | nsUnique
  | featNsPattern (ns : String)
  | featPattern (f : String)
  | featUnique (ns : String)
  | propNsPattern (ns : String)
  | propFeatPattern (f : String)
  | propValPattern (p : String)
  | propUnique (ns f : String)
  | pluginApiPattern
  | enableIfMinLength
  | requiresItemMinLength
  | requiresUnique
  | conditionalRequires
  | providerKeyPattern (k : String)
  | staticNsPattern (ns : String)
  | staticFeatPattern (f : String)
  | staticValPattern (v : String)
  | staticUnique (ns f : String)
  | variantLabelPattern (l : String)
  | variantNsPattern (ns : String)
  | variantFeatPattern (f : String)
  | variantMinValues (l ns f : String)
  | variantValPattern (v : String)
  | variantValUnique (l ns f : String)
  | minLengthList (field : String)
  | missingField (field : String)
  | typeError
  deriving DecidableEq, Repr

instance {ε α : Type} [DecidableEq ε] [DecidableEq α] : DecidableEq (Except ε α) := by
  intro a b
  cases a <;> cases b
  case error.error e₁ e₂ =>
    exact if h : e₁ = e₂ then .isTrue (by rw [h]) else .isFalse (by simp [h])
  case ok.ok a₁ a₂ =>
    exact if h : a₁ = a₂ then .isTrue (by rw [h]) else .isFalse (by simp [h])
  case error.ok e a => exact .isFalse (by simp)
  case ok.error a e => exact .isFalse (by simp)

/-- Boolean success test for `Except`. -/
def okB {ε α : Type} : Except ε α → Bool
  | .ok _ => true
  | .error _ => false

/-! ## Data model (the three pydantic models, after type validation) -/

/-- Default provider priorities configuration (class DefaultPriorities). -/
structure DefaultPriorities where
  «namespace» : List String
  feature : Option (List (String × List String)) := none
  property : Option (List (String × List (String × List String))) := none
  deriving DecidableEq, Repr

/-- Provider information (class Provider). -/
structure Provider where
  plugin_api : Option String := none
  enable_if : Option String := none
  install_time : Bool := true
  optional : Bool := false
  requires : Option (List String) := none
  deriving DecidableEq, Repr

/-- Combined index metadata for wheel variants (class VariantsSchema). -/
structure VariantsSchema where
  default_priorities : DefaultPriorities
  providers : List (String × Provider)
  static_properties : Option (List (String × List (String × List String))) := none
  variants : List (String × List (String × List (String × List String)))
  deriving DecidableEq, Repr

/-! ## Field validators of DefaultPriorities -/

/-- Field validator `validate_namespace` (schema.py lines 45-54): every item
must match `^[a-z0-9_]+$` (first offending item raises), and the items must
be pairwise distinct (`len(v) != len(set(v))`). -/
def DefaultPriorities.validate_namespace (v : List String) :
    Except VErr (List String) :=
  match v.find? (fun item => !reMatchPlus lowerNsChar item) with
  | some item => .error (.nsPattern item)
  | none => if v.Nodup then .ok v else .error .nsUnique

/-- Inner loop of field validator `validate_feature` (schema.py lines 56-78)
over the entries of the dict. -/
def DefaultPriorities.validate_feature_entries :
    List (String × List String) → Except VErr Unit
  | [] => .ok ()
  | (ns, features) :: rest =>
    if !reMatchPlus lowerNsChar ns then .error (.featNsPattern ns)
    else
      match features.find? (fun f => !reMatchPlus lowerNsChar f) with
      | some f => .error (.featPattern f)
      | none =>
        if features.Nodup then DefaultPriorities.validate_feature_entries rest
        else .error (.featUnique ns)

/-- Field validator `validate_feature` (schema.py lines 56-78). -/
def DefaultPriorities.validate_feature
    (v : Option (List (String × List String))) :
    Except VErr (Option (List (String × List String))) :=
  match v with
  | none => .ok none
  | some d => do
    let _ ← DefaultPriorities.validate_feature_entries d
    .ok (some d)

/-- Innermost loop of field validator `validate_property` (schema.py lines
80-114): per-feature property list check. -/
def DefaultPriorities.validate_property_feats (ns : String) :
    List (String × List String) → Except VErr Unit
  | [] => .ok ()
  | (feature, properties) :: rest =>
    if !reMatchPlus lowerNsChar feature then .error (.propFeatPattern feature)
    else
      match properties.find? (fun p => !reMatchPlus dotChar p) with
      | some p => .error (.propValPattern p)
      | none =>
        if properties.Nodup then
          DefaultPriorities.validate_property_feats ns rest
        else .error (.propUnique ns feature)

/-- Outer loop of field validator `validate_property` (schema.py lines
80-114) over the namespaces. -/
def DefaultPriorities.validate_property_entries :
    List (String × List (String × List String)) → Except VErr Unit
  | [] => .ok ()
  | (ns, features) :: rest =>
    if !reMatchPlus lowerNsChar ns then .error (.propNsPattern ns)
    else do
      let _ ← DefaultPriorities.validate_property_feats ns features
      DefaultPriorities.validate_property_entries rest

/-- Field validator `validate_property` (schema.py lines 80-114). -/
def DefaultPriorities.validate_property
    (v : Option (List (String × List (String × List String)))) :
    Except VErr (Option (List (String × List (String × List String)))) :=
  match v with
  | none => .ok none
  | some d => do
    let _ ← DefaultPriorities.validate_property_entries d
    .ok (some d)

/-- Validation of a typed DefaultPriorities value: the pydantic core
constraint `Field(min_length=1)` on `namespace`, then the three field
validators, in field order. -/
def DefaultPriorities.revalidate (dp : DefaultPriorities) :
    Except VErr DefaultPriorities := do
  if dp.«namespace».length < 1 then .error (.minLengthList "namespace")
  else do
    let _ ← DefaultPriorities.validate_namespace dp.«namespace»
    let _ ← DefaultPriorities.validate_feature dp.feature
    let _ ← DefaultPriorities.validate_property dp.property
    .ok dp

/-! ## Field validators of Provider -/

/-- Field validator `validate_plugin_api` (schema.py lines 157-169). -/
def Provider.validate_plugin_api (v : Option String) :
    Except VErr (Option String) :=
  match v with
  | none => .ok none
  | some s =>
    if reMatchPluginApi s then .ok (some s) else .error .pluginApiPattern

/-- Pydantic core constraint `Field(min_length=1)` on `enable_if`
(schema.py lines 127-134): when present, the string must be nonempty. -/
def Provider.enable_if_ok (v : Option String) : Except VErr (Option String) :=
  match v with
  | none => .ok none
  | some s => if s.isEmpty then .error .enableIfMinLength else .ok (some s)

/-- Field validator `validate_requires` (schema.py lines 171-183): every item
must be a nonempty string (`if not item or len(item) < 1`), and the items
must be pairwise distinct. -/
def Provider.validate_requires (v : Option (List String)) :
    Except VErr (Option (List String)) :=
  match v with
  | none => .ok none
  | some l =>
    match l.find? (fun item => item.isEmpty) with
    | some _ => .error .requiresItemMinLength
    | none => if l.Nodup then .ok (some l) else .error .requiresUnique

/-- Model validator `validate_conditional_requires` (schema.py lines
185-190): if `install_time` is not `False`, `requires` must be present. -/
def Provider.validate_conditional_requires (p : Provider) :
    Except VErr Provider :=
  if p.install_time = true && p.requires = none then .error .conditionalRequires
  else .ok p

/-- Validation of a typed Provider value: the per-field constraints and
validators in field order, then the cross-field model validator. -/
def Provider.revalidate (p : Provider) : Except VErr Provider := do
  let _ ← Provider.validate_plugin_api p.plugin_api
  let _ ← Provider.enable_if_ok p.enable_if
  let _ ← Provider.validate_requires p.requires
  Provider.validate_conditional_requires p

/-! ## Field validators of VariantsSchema -/

/-- Field validator `validate_providers` (schema.py lines 221-229): every key
must match `^[A-Za-z0-9_]+$`. -/
def VariantsSchema.validate_providers (v : List (String × Provider)) :
    Except VErr (List (String × Provider)) :=
  match v.find? (fun p => !reMatchPlus provKeyChar p.1) with
  | some p => .error (.providerKeyPattern p.1)
  | none => .ok v

/-- Per-feature loop of field validator `validate_static_properties`
(schema.py lines 231-265). -/
def VariantsSchema.validate_static_feats (ns : String) :
    List (String × List String) → Except VErr Unit
  | [] => .ok ()
  | (feature, values) :: rest =>
    if !reMatchPlus lowerNsChar feature then .error (.staticFeatPattern feature)
    else
      match values.find? (fun val => !reMatchPlus dotChar val) with
      | some val => .error (.staticValPattern val)
      | none =>
        if values.Nodup then VariantsSchema.validate_static_feats ns rest
        else .error (.staticUnique ns feature)

/-- Per-namespace loop of field validator `validate_static_properties`
(schema.py lines 231-265). -/
def VariantsSchema.validate_static_entries :
    List (String × List (String × List String)) → Except VErr Unit
  | [] => .ok ()
  | (ns, features) :: rest =>
    if !reMatchPlus lowerNsChar ns then .error (.staticNsPattern ns)
    else do
      let _ ← VariantsSchema.validate_static_feats ns features
      VariantsSchema.validate_static_entries rest

/-- Field validator `validate_static_properties` (schema.py lines 231-265). -/
def VariantsSchema.validate_static_properties
    (v : Option (List (String × List (String × List String)))) :
    Except VErr (Option (List (String × List (String × List String)))) :=
  match v with
  | none => .ok none
  | some d => do
    let _ ← VariantsSchema.validate_static_entries d
    .ok (some d)

/-- Values check of field validator `validate_variants` (schema.py lines
298-313): at least one value, every value matches `^[a-z0-9_.]+$`, values
pairwise distinct — in that order. -/
def VariantsSchema.validate_variant_values (label ns feature : String)
    (values : List String) : Except VErr Unit :=
  if values.length < 1 then .error (.variantMinValues label ns feature)
  else
    match values.find? (fun val => !reMatchPlus dotChar val) with
    | some val => .error (.variantValPattern val)
    | none =>
      if values.Nodup then .ok ()
      else .error (.variantValUnique label ns feature)

/-- Per-feature loop of field validator `validate_variants` (schema.py lines
291-313). -/
def VariantsSchema.validate_variant_feats (label ns : String) :
    List (String × List String) → Except VErr Unit
  | [] => .ok ()
  | (feature, values) :: rest =>
    if !reMatchPlus dotChar feature then .error (.variantFeatPattern feature)
    else do
      let _ ← VariantsSchema.validate_variant_values label ns feature values
      VariantsSchema.validate_variant_feats label ns rest

/-- Per-namespace loop of field validator `validate_variants` (schema.py
lines 284-313). -/
def VariantsSchema.validate_variant_nss (label : String) :
    List (String × List (String × List String)) → Except VErr Unit
  | [] => .ok ()
  | (ns, features) :: rest =>
    if !reMatchPlus dotChar ns then .error (.variantNsPattern ns)
    else do
      let _ ← VariantsSchema.validate_variant_feats label ns features
      VariantsSchema.validate_variant_nss label rest

/-- Per-label loop of field validator `validate_variants` (schema.py lines
277-313). -/
def VariantsSchema.validate_variants_entries :
    List (String × List (String × List (String × List String))) →
      Except VErr Unit
  | [] => .ok ()
  | (label, nss) :: rest =>
    if !reMatchLabel label then .error (.variantLabelPattern label)
    else do
      let _ ← VariantsSchema.validate_variant_nss label nss
      VariantsSchema.validate_variants_entries rest

/-- Field validator `validate_variants` (schema.py lines 267-314). -/
def VariantsSchema.validate_variants
    (v : List (String × List (String × List (String × List String)))) :
    Except VErr (List (String × List (String × List (String × List String)))) := do
  let _ ← VariantsSchema.validate_variants_entries v
  .ok v

/-- Error-propagating map over a list (used both to validate the providers
of a typed document and to decode typed collections from raw input). -/
def mapME {α β : Type} (f : α → Except VErr β) : List α → Except VErr (List β)
  | [] => .ok []
  | a :: as => do
    let b ← f a
    let bs ← mapME f as
    .ok (b :: bs)

/-- Validation of a typed VariantsSchema value: validation of the nested
models, then the three field validators of VariantsSchema in field order. -/
def VariantsSchema.revalidate (v : VariantsSchema) :
    Except VErr VariantsSchema := do
  let _ ← DefaultPriorities.revalidate v.default_priorities
  let _ ← mapME (fun p => Provider.revalidate p.2) v.providers
  let _ ← VariantsSchema.validate_providers v.providers
  let _ ← VariantsSchema.validate_static_properties v.static_properties
  let _ ← VariantsSchema.validate_variants v.variants
  .ok v

/-! ## JSON-shaped input values

Raw documents are nested mappings as produced by a JSON parser.  Objects are
association lists in insertion order.  Only the shapes the schema uses are
modelled (strings, booleans, null, arrays, objects, natural numbers); the
lax coercions pydantic applies to non-canonical scalar inputs (for example
`"yes"` for a boolean) are outside the claims under verification and are not
modelled. -/

inductive JVal where
  | str (s : String)
  | jbool (b : Bool)
  | num (n : Nat)
  | null
  | arr (items : List JVal)
  | obj (fields : List (String × JVal))

/-- First value bound to key `k` in an object body (Python dict lookup). -/
def lookupKey (k : String) : List (String × JVal) → Option JVal
  | [] => none
  | (k', v) :: rest => if k' = k then some v else lookupKey k rest

/-- Pydantic field lookup with `populate_by_name=True`: the alias is tried
first, then the field name. -/
def lookupField (o : List (String × JVal)) (al nm : String) : Option JVal :=
  match lookupKey al o with
  | some v => some v
  | none => lookupKey nm o

/-! ### Decoders (pydantic type validation of each supported field type) -/

def asObj : JVal → Except VErr (List (String × JVal))
  | .obj o => .ok o
  | _ => .error .typeError

def decStr : JVal → Except VErr String
  | .str s => .ok s
  | _ => .error .typeError

def decBool : JVal → Except VErr Bool
  | .jbool b => .ok b
  | _ => .error .typeError

def decStrList : JVal → Except VErr (List String)
  | .arr xs => mapME decStr xs
  | _ => .error .typeError

def decDict {α : Type} (f : JVal → Except VErr α) :
    JVal → Except VErr (List (String × α))
  | .obj o => mapME (fun p => do .ok (p.1, ← f p.2)) o
  | _ => .error .typeError

/-- Decode an optional field: absent or JSON null is `none`. -/
def decOptField {α : Type} (f : JVal → Except VErr α) :
    Option JVal → Except VErr (Option α)
  | none => .ok none
  | some .null => .ok none
  | some j => do .ok (some (← f j))

/-- Decode a field with a default (the bool fields of Provider). -/
def decBoolField (o : List (String × JVal)) (al nm : String) (dflt : Bool) :
    Except VErr Bool :=
  match lookupField o al nm with
  | none => .ok dflt
  | some j => decBool j

/-- Presence check of a required field. -/
def reqField (o : List (String × JVal)) (al nm : String) :
    Except VErr JVal :=
  match lookupField o al nm with
  | none => .error (.missingField nm)
  | some j => .ok j

/-! ### Parsers: `Model.model_validate` on a raw mapping -/

/-- Pydantic validation of a DefaultPriorities candidate mapping: decode each
field (alias = field name here), apply the `min_length=1` core constraint,
then the field validators, in field order. -/
def DefaultPriorities.model_validate (j : JVal) :
    Except VErr DefaultPriorities := do
  let o ← asObj j
  let nsJ ← reqField o "namespace" "namespace"
  let ns ← decStrList nsJ
  if ns.length < 1 then .error (.minLengthList "namespace")
  else do
    let ns ← DefaultPriorities.validate_namespace ns
    let feat ← decOptField (decDict decStrList) (lookupField o "feature" "feature")
    let feat ← DefaultPriorities.validate_feature feat
    let prop ← decOptField (decDict (decDict decStrList))
      (lookupField o "property" "property")
    let prop ← DefaultPriorities.validate_property prop
    .ok { «namespace» := ns, feature := feat, property := prop }

/-- Pydantic validation of a Provider candidate mapping: decode each field
(honouring the hyphenated aliases with `populate_by_name=True`), apply the
per-field constraints and validators, then the cross-field model
validator. -/
def Provider.model_validate (j : JVal) : Except VErr Provider := do
  let o ← asObj j
  let pa ← decOptField decStr (lookupField o "plugin-api" "plugin_api")
  let pa ← Provider.validate_plugin_api pa
  let ei ← decOptField decStr (lookupField o "enable-if" "enable_if")
  let ei ← Provider.enable_if_ok ei
  let it ← decBoolField o "install-time" "install_time" true
  let opt ← decBoolField o "optional" "optional" false
  let req ← decOptField decStrList (lookupField o "requires" "requires")
  let req ← Provider.validate_requires req
  Provider.validate_conditional_requires
    { plugin_api := pa, enable_if := ei, install_time := it, optional := opt,
      requires := req }

/-- Body of `VariantsSchema.model_validate` once the four field values have
been located in the mapping (`none` = key absent). -/
def VariantsSchema.validateCore (dpJ provJ spJ varJ : Option JVal) :
    Except VErr VariantsSchema := do
  let dpJ ← match dpJ with
    | none => .error (.missingField "default_priorities")
    | some j => .ok j
  let dp ← DefaultPriorities.model_validate dpJ
  let provJ ← match provJ with
    | none => .error (.missingField "providers")
    | some j => .ok j
  let provs ← decDict Provider.model_validate provJ
  let provs ← VariantsSchema.validate_providers provs
  let sp ← decOptField (decDict (decDict decStrList)) spJ
  let sp ← VariantsSchema.validate_static_properties sp
  let varJ ← match varJ with
    | none => .error (.missingField "variants")
    | some j => .ok j
  let vars ← decDict (decDict (decDict decStrList)) varJ
  let vars ← VariantsSchema.validate_variants vars
  .ok { default_priorities := dp, providers := provs,
        static_properties := sp, variants := vars }

/-- Pydantic validation of a top-level document
(`VariantsSchema.model_validate`).  Unrecognized keys are ignored (the
pydantic default `extra='ignore'`): the parse depends on the mapping only
through the lookups of the four fields (by alias, then by name, given
`populate_by_name=True`). -/
def VariantsSchema.model_validate (j : JVal) : Except VErr VariantsSchema :=
  match j with
  | .obj o =>
    VariantsSchema.validateCore
      (lookupField o "default-priorities" "default_priorities")
      (lookupKey "providers" o)
      (lookupField o "static-properties" "static_properties")
      (lookupKey "variants" o)
  | _ => .error .typeError

/-! ### Serializers: `model_dump(by_alias=True)`

Every field is emitted under its canonical (hyphenated) name, in field
order; `None` fields are emitted as JSON null (pydantic `model_dump` does
not drop them). -/

def encStrList (l : List String) : JVal := .arr (l.map .str)

def encOpt {α : Type} (f : α → JVal) : Option α → JVal
  | none => .null
  | some a => f a

def encDict {α : Type} (f : α → JVal) (d : List (String × α)) : JVal :=
  .obj (d.map (fun p => (p.1, f p.2)))

/-- Serializer `DefaultPriorities.model_dump(by_alias=True)`. -/
def DefaultPriorities.model_dump (dp : DefaultPriorities) : JVal :=
  .obj [("namespace", encStrList dp.«namespace»),
        ("feature", encOpt (encDict encStrList) dp.feature),
        ("property", encOpt (encDict (encDict encStrList)) dp.property)]

/-- Serializer `Provider.model_dump(by_alias=True)`. -/
def Provider.model_dump (p : Provider) : JVal :=
  .obj [("plugin-api", encOpt .str p.plugin_api),
        ("enable-if", encOpt .str p.enable_if),
        ("install-time", .jbool p.install_time),
        ("optional", .jbool p.optional),
        ("requires", encOpt encStrList p.requires)]

/-- Serializer `VariantsSchema.model_dump(by_alias=True)`. -/
def VariantsSchema.model_dump (v : VariantsSchema) : JVal :=
  .obj [("default-priorities", v.default_priorities.model_dump),
        ("providers", encDict Provider.model_dump v.providers),
        ("static-properties",
          encOpt (encDict (encDict encStrList)) v.static_properties),
        ("variants", encDict (encDict (encDict encStrList)) v.variants)]

/-! ## Small `Except` reasoning helpers -/

@[simp]
theorem ok_bind {ε α β : Type} (a : α) (f : α → Except ε β) :
    (Except.ok a >>= f) = f a := rfl

@[simp]
theorem error_bind {ε α β : Type} (e : ε) (f : α → Except ε β) :
    (Except.error e >>= f : Except ε β) = .error e := rfl

theorem bind_eq_ok {ε α β : Type} {x : Except ε α} {f : α → Except ε β}
    {b : β} : (x >>= f) = .ok b ↔ ∃ a, x = .ok a ∧ f a = .ok b := by
  cases x <;> simp [Bind.bind, Except.bind]

/-! ## Claim C1: the Provider cross-field rule -/

/-- C1.  For every Provider candidate whose individual fields are valid,
validation fails iff `install_time` is not false and `requires` is absent;
when it fails it fails with the cross-field rule, and a provider with
`install_time = false` and no `requires` validates. -/
theorem claim_C1 (p : Provider)
    (h1 : Provider.validate_plugin_api p.plugin_api = .ok p.plugin_api)
    (h2 : Provider.enable_if_ok p.enable_if = .ok p.enable_if)
    (h3 : Provider.validate_requires p.requires = .ok p.requires) :
    (okB (Provider.revalidate p) = false ↔
      (p.install_time = true ∧ p.requires = none))
    ∧ ((p.install_time = true ∧ p.requires = none) →
        Provider.revalidate p = .error .conditionalRequires)
    ∧ (p.install_time = false → Provider.revalidate p = .ok p) := by
  have hrev : Provider.revalidate p = Provider.validate_conditional_requires p := by
    simp only [Provider.revalidate, h1, h2, h3, ok_bind]
  rw [hrev]
  unfold Provider.validate_conditional_requires
  by_cases hit : p.install_time = true
  · cases hreq : p.requires with
    | none => simp [okB, hit, hreq]
    | some l => simp [okB, hit, hreq]
  · have hit' : p.install_time = false := by
      cases h : p.install_time
      · rfl
      · exact absurd h hit
    simp [okB, hit', hit]

/-- C1 witness: a provider with `install_time` explicitly false and no
`requires` has individually valid fields and validates. -/
theorem claim_C1_witness :
    Provider.revalidate { install_time := false } =
      .ok { install_time := false } :=
  (claim_C1 { install_time := false } rfl rfl rfl).2.2 rfl

/-! ## Claim C3: variant-label length boundary (code bug)

The intended rule is the anchored pattern `^[a-z0-9_.]{1,16}$`: labels of
length 17 should always be rejected.  CPython `re.match` lets the final `$`
also match just before a trailing newline, so the 17-character label of 16
`a` characters followed by a newline is accepted by `validate_variants`. -/

/-- C3.  Evaluation at the failing input: the 17-character label
`"aaaaaaaaaaaaaaaa\n"` is accepted by the variants validator, although every
length-17 label should be rejected; the in-pattern boundary cases behave as
claimed (length 16 accepted, length 17 of pattern characters rejected, empty
rejected). -/
theorem claim_C3 :
    ("aaaaaaaaaaaaaaaa\n" : String).length = 17
    ∧ reMatchLabel "aaaaaaaaaaaaaaaa\n" = true
    ∧ VariantsSchema.validate_variants [("aaaaaaaaaaaaaaaa\n", [])] =
        .ok [("aaaaaaaaaaaaaaaa\n", [])]
    ∧ reMatchLabel "aaaaaaaaaaaaaaaa" = true
    ∧ reMatchLabel "aaaaaaaaaaaaaaaaa" = false
    ∧ reMatchLabel "" = false
    ∧ VariantsSchema.validate_variants [("aaaaaaaaaaaaaaaaa", [])] =
        .error (.variantLabelPattern "aaaaaaaaaaaaaaaaa") := by
  refine ⟨rfl, rfl, rfl, rfl, rfl, rfl, rfl⟩

/-! ## Claim C4: namespace-entry and provider-key patterns (code bug)

Same CPython `re.match` trailing-newline behaviour: `"a\n"` is not a
full-string match of `^[a-z0-9_]+$` but is accepted as a namespace entry,
and `"A\n"` is accepted as a provider key.  The two patterns are otherwise
distinct exactly as claimed (uppercase accepted as provider key, rejected as
namespace entry). -/

/-- C4.  Evaluation at the failing inputs, plus the pattern-distinctness
part of the claim, which holds. -/
theorem claim_C4 :
    DefaultPriorities.validate_namespace ["a\n"] = .ok ["a\n"]
    ∧ ("a\n" : String).data.all lowerNsChar = false
    ∧ reMatchPlus provKeyChar "A\n" = true
    ∧ ("A\n" : String).data.all provKeyChar = false
    ∧ VariantsSchema.validate_providers [("Agpu", { install_time := false })] =
        .ok [("Agpu", { install_time := false })]
    ∧ DefaultPriorities.validate_namespace ["Agpu"] =
        .error (.nsPattern "Agpu") := by
  refine ⟨rfl, rfl, rfl, rfl, rfl, rfl⟩

/-! ## Claim C5: uniqueness-constrained lists -/

/-- C5 counterexample: the claim says a unique-values field fails iff the
list has a duplicate, regardless of pattern validity of its elements; but
`["A"]` has no duplicate and still fails namespace validation (pattern
violation). -/
theorem claim_C5_counterexample :
    DefaultPriorities.validate_namespace ["A"] = .error (.nsPattern "A")
    ∧ List.Nodup ["A"] := ⟨rfl, by decide⟩

/-- C5 as amended: a duplicate always makes a unique-values field fail; and
for lists whose elements satisfy their per-element constraints (the pattern
for namespace entries, nonemptiness for requires items), the field fails iff
the list has a duplicate. -/
theorem claim_C5_amended (L : List String) :
    ((∀ s ∈ L, reMatchPlus lowerNsChar s = true) →
      (okB (DefaultPriorities.validate_namespace L) = true ↔ L.Nodup))
    ∧ ((∀ s ∈ L, s.isEmpty = false) →
      (okB (Provider.validate_requires (some L)) = true ↔ L.Nodup))
    ∧ (¬ L.Nodup →
        okB (DefaultPriorities.validate_namespace L) = false
        ∧ okB (Provider.validate_requires (some L)) = false) := by
  refine ⟨?_, ?_, ?_⟩
  · intro hall
    have hfind : L.find? (fun item => !reMatchPlus lowerNsChar item) = none := by
      rw [List.find?_eq_none]
      intro x hx
      simp [hall x hx]
    unfold DefaultPriorities.validate_namespace
    rw [hfind]
    by_cases hnd : L.Nodup <;> simp [hnd, okB]
  · intro hall
    have hfind : L.find? (fun item => item.isEmpty) = none := by
      rw [List.find?_eq_none]
      intro x hx
      simp [hall x hx]
    simp only [Provider.validate_requires]
    rw [hfind]
    by_cases hnd : L.Nodup <;> simp [hnd, okB]
  · intro hnd
    constructor
    · unfold DefaultPriorities.validate_namespace
      cases hfind : L.find? (fun item => !reMatchPlus lowerNsChar item) with
      | none => simp [hnd, okB]
      | some item => simp [okB]
    · simp only [Provider.validate_requires]
      cases hfind : L.find? (fun item => item.isEmpty) with
      | none => simp [hfind, hnd, okB]
      | some item => simp [hfind, okB]

/-- C5 witness: a duplicated requires list fails, a pattern-valid duplicate
namespace list fails, and a pattern-valid duplicate-free namespace list
succeeds. -/
theorem claim_C5_witness :
    okB (Provider.validate_requires (some ["x", "x"])) = false
    ∧ okB (DefaultPriorities.validate_namespace ["cuda", "cpu"]) = true :=
  ⟨((claim_C5_amended ["x", "x"]).2.2 (by decide)).2,
    ((claim_C5_amended ["cuda", "cpu"]).1 (by decide)).mpr (by decide)⟩

/-! ## Claim C8: empty requires list versus absent requires -/

/-- C8.  The cross-field rule distinguishes an absent `requires` from an
empty one: the empty list passes `validate_requires`, and a provider with
`install_time = true` (or defaulted) and `requires = []` validates whenever
its other fields are individually valid. -/
theorem claim_C8 (p : Provider)
    (hreq : p.requires = some [])
    (h1 : Provider.validate_plugin_api p.plugin_api = .ok p.plugin_api)
    (h2 : Provider.enable_if_ok p.enable_if = .ok p.enable_if) :
    Provider.validate_requires (some ([] : List String)) = .ok (some [])
    ∧ Provider.revalidate p = .ok p := by
  refine ⟨rfl, ?_⟩
  have h3 : Provider.validate_requires p.requires = .ok p.requires := by
    rw [hreq]; rfl
  simp only [Provider.revalidate, h1, h2, h3, ok_bind]
  unfold Provider.validate_conditional_requires
  simp [hreq]

/-- C8 witness: the default provider with `requires = []` validates. -/
theorem claim_C8_witness :
    Provider.revalidate { requires := some [] } = .ok { requires := some [] } :=
  (claim_C8 { requires := some [] } rfl rfl rfl).2

/-! ## Claim C10: no non-emptiness constraints on container mappings -/

/-- Concrete document whose providers and variants mappings are both empty. -/
def emptyContainersDoc : JVal :=
  .obj [("default-priorities", .obj [("namespace", .arr [.str "cuda"])]),
        ("providers", .obj []),
        ("variants", .obj [])]

/-- Expected parse of `emptyContainersDoc`. -/
def emptyContainersParsed : VariantsSchema :=
  { default_priorities := { «namespace» := ["cuda"] }, providers := [],
    static_properties := none, variants := [] }

/-- C10.  Empty providers and variants mappings validate; a valid variant
label mapped to an empty namespace mapping is accepted; an empty value list
inside a (label, namespace, feature) entry is the one emptiness that is
rejected; and a whole document with empty providers and variants mappings
validates. -/
theorem claim_C10 :
    VariantsSchema.validate_providers [] = .ok []
    ∧ VariantsSchema.validate_variants [] = .ok []
    ∧ (∀ label : String, reMatchLabel label = true →
        VariantsSchema.validate_variants [(label, [])] = .ok [(label, [])])
    ∧ (∀ label ns feature : String,
        reMatchLabel label = true → reMatchPlus dotChar ns = true →
        reMatchPlus dotChar feature = true →
        VariantsSchema.validate_variants [(label, [(ns, [(feature, [])])])] =
          .error (.variantMinValues label ns feature))
    ∧ VariantsSchema.model_validate emptyContainersDoc = .ok emptyContainersParsed := by
  refine ⟨rfl, rfl, ?_, ?_, rfl⟩
  · intro label hl
    simp [VariantsSchema.validate_variants,
      VariantsSchema.validate_variants_entries, hl,
      VariantsSchema.validate_variant_nss]
  · intro label ns feature hl hns hf
    simp [VariantsSchema.validate_variants,
      VariantsSchema.validate_variants_entries, hl,
      VariantsSchema.validate_variant_nss, hns,
      VariantsSchema.validate_variant_feats, hf,
      VariantsSchema.validate_variant_values]

/-- C10 witness: both hypothesis-bearing parts applied at concrete labels. -/
theorem claim_C10_witness :
    VariantsSchema.validate_variants [("cuda12", [])] = .ok [("cuda12", [])]
    ∧ VariantsSchema.validate_variants [("cuda12", [("cuda", [("version", [])])])] =
        .error (.variantMinValues "cuda12" "cuda" "version") :=
  ⟨claim_C10.2.2.1 "cuda12" rfl,
    claim_C10.2.2.2.1 "cuda12" "cuda" "version" rfl rfl rfl⟩

/-! ## Round-trip toolkit -/

theorem mapME_map {α β : Type} (f : α → Except VErr β) (g : β → α)
    (l : List β) (h : ∀ a ∈ l, f (g a) = .ok a) :
    mapME f (l.map g) = .ok l := by
  induction l with
  | nil => rfl
  | cons b bs ih =>
    simp only [List.map_cons, mapME, h b (List.mem_cons_self b bs), ok_bind,
      ih (fun a ha => h a (List.mem_cons_of_mem b ha))]

theorem mapME_mem_ok {α β : Type} {f : α → Except VErr β} {l : List α}
    {r : List β} (h : mapME f l = .ok r) :
    ∀ b ∈ r, ∃ a ∈ l, f a = .ok b := by
  induction l generalizing r with
  | nil =>
    cases h
    simp
  | cons a as ih =>
    simp only [mapME] at h
    obtain ⟨b, hb, h2⟩ := bind_eq_ok.mp h
    obtain ⟨bs, hbs, h3⟩ := bind_eq_ok.mp h2
    cases h3
    intro c hc
    rcases List.mem_cons.mp hc with hc | hc
    · exact ⟨a, List.mem_cons_self a as, hc ▸ hb⟩
    · obtain ⟨a', ha', hfa'⟩ := ih hbs c hc
      exact ⟨a', List.mem_cons_of_mem a ha', hfa'⟩

theorem decStrList_enc (l : List String) :
    decStrList (encStrList l) = .ok l :=
  mapME_map decStr JVal.str l (fun _ _ => rfl)

theorem decDict_enc {α : Type} (f : JVal → Except VErr α) (g : α → JVal)
    (d : List (String × α)) (h : ∀ p ∈ d, f (g p.2) = .ok p.2) :
    decDict f (encDict g d) = .ok d := by
  refine mapME_map _ (fun p => (p.1, g p.2)) d (fun p hp => ?_)
  simp [h p hp]

theorem decOptField_enc {α : Type} (f : JVal → Except VErr α) (g : α → JVal)
    (o : Option α) (hok : ∀ a, o = some a → f (g a) = .ok a)
    (hnn : ∀ a, g a ≠ .null) :
    decOptField f (some (encOpt g o)) = .ok o := by
  cases o with
  | none => rfl
  | some a =>
    have h1 : f (g a) = .ok a := hok a rfl
    cases hga : g a <;>
      first
        | exact absurd hga (hnn a)
        | (rw [hga] at h1; simp [encOpt, hga, decOptField, h1])

theorem decOptField_str (o : Option String) :
    decOptField decStr (some (encOpt JVal.str o)) = .ok o := by
  cases o <;> rfl

/-! ### Validators are the identity on success -/

theorem validate_namespace_ok {v w : List String}
    (h : DefaultPriorities.validate_namespace v = .ok w) : w = v := by
  unfold DefaultPriorities.validate_namespace at h
  split at h
  · cases h
  · split at h
    · cases h; rfl
    · cases h

theorem validate_feature_ok {v w}
    (h : DefaultPriorities.validate_feature v = .ok w) : w = v := by
  cases v with
  | none => cases h; rfl
  | some d =>
    simp only [DefaultPriorities.validate_feature] at h
    obtain ⟨u, _, h2⟩ := bind_eq_ok.mp h
    cases h2; rfl

theorem validate_property_ok {v w}
    (h : DefaultPriorities.validate_property v = .ok w) : w = v := by
  cases v with
  | none => cases h; rfl
  | some d =>
    simp only [DefaultPriorities.validate_property] at h
    obtain ⟨u, _, h2⟩ := bind_eq_ok.mp h
    cases h2; rfl

theorem validate_plugin_api_ok {v w}
    (h : Provider.validate_plugin_api v = .ok w) : w = v := by
  cases v with
  | none => cases h; rfl
  | some s =>
    simp only [Provider.validate_plugin_api] at h
    split at h
    · cases h; rfl
    · cases h

theorem enable_if_ok_ok {v w}
    (h : Provider.enable_if_ok v = .ok w) : w = v := by
  cases v with
  | none => cases h; rfl
  | some s =>
    simp only [Provider.enable_if_ok] at h
    split at h
    · cases h
    · cases h; rfl

theorem validate_requires_ok {v w}
    (h : Provider.validate_requires v = .ok w) : w = v := by
  cases v with
  | none => cases h; rfl
  | some l =>
    simp only [Provider.validate_requires] at h
    split at h
    · cases h
    · split at h
      · cases h; rfl
      · cases h

theorem validate_conditional_requires_ok {p q : Provider}
    (h : Provider.validate_conditional_requires p = .ok q) : q = p := by
  unfold Provider.validate_conditional_requires at h
  split at h
  · cases h
  · cases h; rfl

theorem validate_providers_ok {v w}
    (h : VariantsSchema.validate_providers v = .ok w) : w = v := by
  unfold VariantsSchema.validate_providers at h
  split at h
  · cases h
  · cases h; rfl

theorem validate_static_properties_ok {v w}
    (h : VariantsSchema.validate_static_properties v = .ok w) : w = v := by
  cases v with
  | none => cases h; rfl
  | some d =>
    simp only [VariantsSchema.validate_static_properties] at h
    obtain ⟨u, _, h2⟩ := bind_eq_ok.mp h
    cases h2; rfl

theorem validate_variants_ok {v w}
    (h : VariantsSchema.validate_variants v = .ok w) : w = v := by
  simp only [VariantsSchema.validate_variants] at h
  obtain ⟨u, _, h2⟩ := bind_eq_ok.mp h
  cases h2; rfl

theorem decStrList_arr (l : List String) :
    decStrList (JVal.arr (l.map JVal.str)) = .ok l := decStrList_enc l

/-! ### Provider round trip -/

theorem provider_revalidate_of {p : Provider}
    (h1 : Provider.validate_plugin_api p.plugin_api = .ok p.plugin_api)
    (h2 : Provider.enable_if_ok p.enable_if = .ok p.enable_if)
    (h3 : Provider.validate_requires p.requires = .ok p.requires)
    (h4 : Provider.validate_conditional_requires p = .ok p) :
    Provider.revalidate p = .ok p := by
  simp only [Provider.revalidate, h1, h2, h3, ok_bind]
  exact h4

theorem provider_revalidate_ok {p q : Provider}
    (h : Provider.revalidate p = .ok q) :
    q = p
    ∧ Provider.validate_plugin_api p.plugin_api = .ok p.plugin_api
    ∧ Provider.enable_if_ok p.enable_if = .ok p.enable_if
    ∧ Provider.validate_requires p.requires = .ok p.requires
    ∧ Provider.validate_conditional_requires p = .ok p := by
  simp only [Provider.revalidate] at h
  obtain ⟨a, ha, h2⟩ := bind_eq_ok.mp h
  obtain ⟨b, hb, h3⟩ := bind_eq_ok.mp h2
  obtain ⟨c, hc, h4⟩ := bind_eq_ok.mp h3
  have hq := validate_conditional_requires_ok h4
  have ea := validate_plugin_api_ok ha
  have eb := enable_if_ok_ok hb
  have ec := validate_requires_ok hc
  subst hq; subst ea; subst eb; subst ec
  exact ⟨rfl, ha, hb, hc, h4⟩

theorem provider_model_validate_ok {j : JVal} {p : Provider}
    (h : Provider.model_validate j = .ok p) :
    Provider.revalidate p = .ok p := by
  simp only [Provider.model_validate] at h
  obtain ⟨o, ho, h1⟩ := bind_eq_ok.mp h
  obtain ⟨pa0, hpa0, h2⟩ := bind_eq_ok.mp h1
  obtain ⟨pa, hpa, h3⟩ := bind_eq_ok.mp h2
  obtain ⟨ei0, hei0, h4⟩ := bind_eq_ok.mp h3
  obtain ⟨ei, hei, h5⟩ := bind_eq_ok.mp h4
  obtain ⟨it, hit, h6⟩ := bind_eq_ok.mp h5
  obtain ⟨opt, hopt, h7⟩ := bind_eq_ok.mp h6
  obtain ⟨req0, hreq0, h8⟩ := bind_eq_ok.mp h7
  obtain ⟨req, hreq, h9⟩ := bind_eq_ok.mp h8
  have e1 := validate_plugin_api_ok hpa
  have e2 := enable_if_ok_ok hei
  have e3 := validate_requires_ok hreq
  subst e1; subst e2; subst e3
  have hp := validate_conditional_requires_ok h9
  subst hp
  exact provider_revalidate_of hpa hei hreq h9

theorem provider_model_validate_dump {p : Provider}
    (h : Provider.revalidate p = .ok p) :
    Provider.model_validate p.model_dump = .ok p := by
  obtain ⟨-, h1, h2, h3, h4⟩ := provider_revalidate_ok h
  obtain ⟨pa, ei, it, opt, req⟩ := p
  dsimp only at h1 h2 h3 h4
  cases pa <;> cases ei <;> cases req <;>
    simp +decide [Provider.model_validate, Provider.model_dump, lookupField,
      lookupKey, encOpt, encStrList, decOptField, asObj, decBoolField, decBool,
      decStr, decStrList_arr, ok_bind, h1, h2, h3, h4]

/-! ### DefaultPriorities round trip -/

theorem dp_revalidate_of {dp : DefaultPriorities}
    (h0 : ¬ (dp.«namespace».length < 1))
    (h1 : DefaultPriorities.validate_namespace dp.«namespace» = .ok dp.«namespace»)
    (h2 : DefaultPriorities.validate_feature dp.feature = .ok dp.feature)
    (h3 : DefaultPriorities.validate_property dp.property = .ok dp.property) :
    DefaultPriorities.revalidate dp = .ok dp := by
  simp only [DefaultPriorities.revalidate, if_neg h0, h1, h2, h3, ok_bind]

theorem dp_revalidate_ok {dp q : DefaultPriorities}
    (h : DefaultPriorities.revalidate dp = .ok q) :
    q = dp ∧ ¬ (dp.«namespace».length < 1)
    ∧ DefaultPriorities.validate_namespace dp.«namespace» = .ok dp.«namespace»
    ∧ DefaultPriorities.validate_feature dp.feature = .ok dp.feature
    ∧ DefaultPriorities.validate_property dp.property = .ok dp.property := by
  simp only [DefaultPriorities.revalidate] at h
  split at h
  next => cases h
  next h0 =>
    obtain ⟨a, ha, h2⟩ := bind_eq_ok.mp h
    obtain ⟨b, hb, h3⟩ := bind_eq_ok.mp h2
    obtain ⟨c, hc, h4⟩ := bind_eq_ok.mp h3
    cases h4
    have ea := validate_namespace_ok ha
    have eb := validate_feature_ok hb
    have ec := validate_property_ok hc
    subst ea; subst eb; subst ec
    exact ⟨rfl, h0, ha, hb, hc⟩

theorem dp_model_validate_ok {j : JVal} {dp : DefaultPriorities}
    (h : DefaultPriorities.model_validate j = .ok dp) :
    DefaultPriorities.revalidate dp = .ok dp := by
  simp only [DefaultPriorities.model_validate] at h
  obtain ⟨o, ho, h1⟩ := bind_eq_ok.mp h
  obtain ⟨nsJ, hnsJ, h2⟩ := bind_eq_ok.mp h1
  obtain ⟨ns0, hns0, h3⟩ := bind_eq_ok.mp h2
  split at h3
  next => cases h3
  next h0 =>
    obtain ⟨ns, hns, h4⟩ := bind_eq_ok.mp h3
    obtain ⟨feat0, hfeat0, h5⟩ := bind_eq_ok.mp h4
    obtain ⟨feat, hfeat, h6⟩ := bind_eq_ok.mp h5
    obtain ⟨prop0, hprop0, h7⟩ := bind_eq_ok.mp h6
    obtain ⟨prop, hprop, h8⟩ := bind_eq_ok.mp h7
    cases h8
    have e1 := validate_namespace_ok hns
    have e2 := validate_feature_ok hfeat
    have e3 := validate_property_ok hprop
    subst e1; subst e2; subst e3
    exact dp_revalidate_of h0 hns hfeat hprop

theorem dp_model_validate_dump {dp : DefaultPriorities}
    (h : DefaultPriorities.revalidate dp = .ok dp) :
    DefaultPriorities.model_validate dp.model_dump = .ok dp := by
  obtain ⟨-, h0, h1, h2, h3⟩ := dp_revalidate_ok h
  have hfeat : decOptField (decDict decStrList)
      (some (encOpt (encDict encStrList) dp.feature)) = .ok dp.feature :=
    decOptField_enc _ _ _
      (fun d _ => decDict_enc _ _ d (fun p _ => decStrList_enc p.2))
      (fun d => by simp [encDict])
  have hprop : decOptField (decDict (decDict decStrList))
      (some (encOpt (encDict (encDict encStrList)) dp.property)) = .ok dp.property :=
    decOptField_enc _ _ _
      (fun d _ => decDict_enc _ _ d
        (fun p _ => decDict_enc _ _ p.2 (fun q _ => decStrList_enc q.2)))
      (fun d => by simp [encDict])
  have h0' : ¬ (dp.«namespace» = []) := by
    intro he
    exact h0 (by simp [he])
  simp +decide [DefaultPriorities.model_validate, DefaultPriorities.model_dump,
    reqField, lookupField, lookupKey, asObj, decStrList_enc, if_neg h0, h0',
    h1, hfeat, h2, hprop, h3, ok_bind]

/-! ### VariantsSchema round trip -/

theorem mapME_pointwise {α β : Type} {f : α → Except VErr β} {g : α → β}
    {l : List α} (h : ∀ a ∈ l, f a = .ok (g a)) :
    mapME f l = .ok (l.map g) := by
  induction l with
  | nil => rfl
  | cons a as ih =>
    simp only [mapME, h a (List.mem_cons_self a as), ok_bind,
      ih (fun x hx => h x (List.mem_cons_of_mem a hx)), List.map_cons]

theorem mapME_forall_ok {α β : Type} {f : α → Except VErr β} {l : List α}
    {r : List β} (h : mapME f l = .ok r) : ∀ a ∈ l, ∃ b, f a = .ok b := by
  induction l generalizing r with
  | nil => intro a ha; cases ha
  | cons a as ih =>
    simp only [mapME] at h
    obtain ⟨b, hb, h2⟩ := bind_eq_ok.mp h
    obtain ⟨bs, hbs, h3⟩ := bind_eq_ok.mp h2
    intro x hx
    rcases List.mem_cons.mp hx with hx | hx
    · exact ⟨b, hx ▸ hb⟩
    · exact ih hbs x hx

theorem decDict_mem_ok {α : Type} {f : JVal → Except VErr α} {j : JVal}
    {r : List (String × α)} (h : decDict f j = .ok r) :
    ∀ b ∈ r, ∃ jv, f jv = .ok b.2 := by
  cases j <;> try (cases h)
  case obj o =>
    simp only [decDict] at h
    intro b hb
    obtain ⟨a, _, hfa⟩ := mapME_mem_ok h b hb
    obtain ⟨x, hx, he⟩ := bind_eq_ok.mp hfa
    cases he
    exact ⟨a.2, hx⟩

theorem vs_revalidate_of {v : VariantsSchema}
    (h0 : DefaultPriorities.revalidate v.default_priorities = .ok v.default_priorities)
    (h1 : ∀ p ∈ v.providers, Provider.revalidate p.2 = .ok p.2)
    (h2 : VariantsSchema.validate_providers v.providers = .ok v.providers)
    (h3 : VariantsSchema.validate_static_properties v.static_properties = .ok v.static_properties)
    (h4 : VariantsSchema.validate_variants v.variants = .ok v.variants) :
    VariantsSchema.revalidate v = .ok v := by
  have hm : mapME (fun p => Provider.revalidate p.2) v.providers =
      .ok (v.providers.map (fun p => p.2)) :=
    mapME_pointwise (fun p hp => h1 p hp)
  simp only [VariantsSchema.revalidate, h0, hm, h2, h3, h4, ok_bind]

theorem vs_revalidate_ok {v q : VariantsSchema}
    (h : VariantsSchema.revalidate v = .ok q) :
    q = v
    ∧ DefaultPriorities.revalidate v.default_priorities = .ok v.default_priorities
    ∧ (∀ p ∈ v.providers, Provider.revalidate p.2 = .ok p.2)
    ∧ VariantsSchema.validate_providers v.providers = .ok v.providers
    ∧ VariantsSchema.validate_static_properties v.static_properties = .ok v.static_properties
    ∧ VariantsSchema.validate_variants v.variants = .ok v.variants := by
  simp only [VariantsSchema.revalidate] at h
  obtain ⟨a, ha, h2⟩ := bind_eq_ok.mp h
  obtain ⟨b, hb, h3⟩ := bind_eq_ok.mp h2
  obtain ⟨c, hc, h4⟩ := bind_eq_ok.mp h3
  obtain ⟨d, hd, h5⟩ := bind_eq_ok.mp h4
  obtain ⟨e, he, h6⟩ := bind_eq_ok.mp h5
  cases h6
  have ea := (dp_revalidate_ok ha).1
  subst ea
  have ec := validate_providers_ok hc
  subst ec
  have ed := validate_static_properties_ok hd
  subst ed
  have ee := validate_variants_ok he
  subst ee
  refine ⟨rfl, ha, ?_, hc, hd, he⟩
  intro p hp
  obtain ⟨x, hx⟩ := mapME_forall_ok hb p hp
  have ex := (provider_revalidate_ok hx).1
  exact ex ▸ hx

theorem VariantsSchema.validateCore_ok {dpJ provJ spJ varJ : Option JVal}
    {v : VariantsSchema}
    (h : VariantsSchema.validateCore dpJ provJ spJ varJ = .ok v) :
    VariantsSchema.revalidate v = .ok v := by
  cases dpJ with
  | none => simp [VariantsSchema.validateCore] at h
  | some dj =>
  cases provJ with
  | none =>
    simp only [VariantsSchema.validateCore, ok_bind, error_bind] at h
    obtain ⟨a, -, h2⟩ := bind_eq_ok.mp h
    cases h2
  | some pj =>
  cases varJ with
  | none =>
    simp only [VariantsSchema.validateCore, ok_bind, error_bind] at h
    obtain ⟨a, -, h2⟩ := bind_eq_ok.mp h
    obtain ⟨b, -, h3⟩ := bind_eq_ok.mp h2
    obtain ⟨c, -, h4⟩ := bind_eq_ok.mp h3
    obtain ⟨d, -, h5⟩ := bind_eq_ok.mp h4
    obtain ⟨e, -, h6⟩ := bind_eq_ok.mp h5
    cases h6
  | some vj =>
    simp only [VariantsSchema.validateCore, ok_bind] at h
    obtain ⟨dp, hdp, h2⟩ := bind_eq_ok.mp h
    obtain ⟨provs0, hprovs0, h4⟩ := bind_eq_ok.mp h2
    obtain ⟨provs, hprovs, h5⟩ := bind_eq_ok.mp h4
    obtain ⟨sp0, hsp0, h6⟩ := bind_eq_ok.mp h5
    obtain ⟨sp, hsp, h7⟩ := bind_eq_ok.mp h6
    obtain ⟨vars0, hvars0, h9⟩ := bind_eq_ok.mp h7
    obtain ⟨vars, hvars, h10⟩ := bind_eq_ok.mp h9
    cases h10
    have e1 := validate_providers_ok hprovs
    subst e1
    have e2 := validate_static_properties_ok hsp
    subst e2
    have e3 := validate_variants_ok hvars
    subst e3
    refine vs_revalidate_of ?_ ?_ hprovs hsp hvars
    · exact dp_model_validate_ok hdp
    · intro p hp
      obtain ⟨jv, hjv⟩ := decDict_mem_ok hprovs0 p hp
      exact provider_model_validate_ok hjv

theorem vs_model_validate_ok {j : JVal} {v : VariantsSchema}
    (h : VariantsSchema.model_validate j = .ok v) :
    VariantsSchema.revalidate v = .ok v := by
  cases j <;> try (cases h)
  case obj o =>
    simp only [VariantsSchema.model_validate] at h
    exact VariantsSchema.validateCore_ok h

theorem vs_model_validate_dump {v : VariantsSchema}
    (h : VariantsSchema.revalidate v = .ok v) :
    VariantsSchema.model_validate v.model_dump = .ok v := by
  obtain ⟨-, h0, h1, h2, h3, h4⟩ := vs_revalidate_ok h
  have hdp := dp_model_validate_dump h0
  have hprov : decDict Provider.model_validate
      (encDict Provider.model_dump v.providers) = .ok v.providers :=
    decDict_enc _ _ _ (fun p hp => provider_model_validate_dump (h1 p hp))
  have hsp : decOptField (decDict (decDict decStrList))
      (some (encOpt (encDict (encDict encStrList)) v.static_properties)) =
      .ok v.static_properties :=
    decOptField_enc _ _ _
      (fun d _ => decDict_enc _ _ d
        (fun p _ => decDict_enc _ _ p.2 (fun q _ => decStrList_enc q.2)))
      (fun d => by simp [encDict])
  have hvar : decDict (decDict (decDict decStrList))
      (encDict (encDict (encDict encStrList)) v.variants) = .ok v.variants :=
    decDict_enc _ _ _ (fun p _ => decDict_enc _ _ p.2
      (fun q _ => decDict_enc _ _ q.2 (fun r _ => decStrList_enc r.2)))
  simp +decide [VariantsSchema.model_validate, VariantsSchema.model_dump,
    VariantsSchema.validateCore, lookupField, lookupKey, hdp, hprov, hsp, hvar,
    h2, h3, h4, ok_bind]

/-! ## Claim C2: round trip -/

/-- C2.  For every validated VariantsSchema instance (one produced by
validation of some raw mapping), serializing it to its canonical
hyphenated-key mapping form and validating that mapping again reproduces the
same instance. -/
theorem claim_C2 {j : JVal} {v : VariantsSchema}
    (h : VariantsSchema.model_validate j = .ok v) :
    VariantsSchema.model_validate (VariantsSchema.model_dump v) = .ok v :=
  vs_model_validate_dump (vs_model_validate_ok h)

/-- Raw mapping form of the example document from the comments of schema.py
(lines 350-360). -/
def exampleDocFields : List (String × JVal) :=
  [("default-priorities", .obj [("namespace", .arr [.str "cuda", .str "cpu"])]),
   ("providers", .obj [("cuda_provider", .obj
      [("plugin-api", .str "my_module:CudaPlugin"),
       ("install-time", .jbool true),
       ("requires", .arr [.str "nvidia-cuda>=12.0"])])]),
   ("variants", .obj [("cuda12", .obj
      [("cuda", .obj [("version", .arr [.str "12.0", .str "12.1"])])])])]

/-- Typed instance produced by validating `exampleDocFields`. -/
def exampleParsed : VariantsSchema :=
  { default_priorities := { «namespace» := ["cuda", "cpu"] },
    providers := [("cuda_provider",
      { plugin_api := some "my_module:CudaPlugin", enable_if := none,
        install_time := true, optional := false,
        requires := some ["nvidia-cuda>=12.0"] })],
    static_properties := none,
    variants := [("cuda12", [("cuda", [("version", ["12.0", "12.1"])])])] }

/-- C2 witness: the example document validates, and its validated instance
round-trips through serialization. -/
theorem claim_C2_witness :
    VariantsSchema.model_validate (.obj exampleDocFields) = .ok exampleParsed
    ∧ VariantsSchema.model_validate exampleParsed.model_dump = .ok exampleParsed :=
  ⟨rfl, @claim_C2 (.obj exampleDocFields) exampleParsed rfl⟩

/-! ## Claim C9: unknown top-level keys are ignored -/

theorem lookupKey_ins {k' k : String} (jv : JVal) (l1 l2 : List (String × JVal))
    (hne : k' ≠ k) :
    lookupKey k' (l1 ++ (k, jv) :: l2) = lookupKey k' (l1 ++ l2) := by
  have hne' : ¬ (k = k') := fun he => hne he.symm
  induction l1 with
  | nil => simp [lookupKey, hne']
  | cons p l1 ih =>
    by_cases hp : p.1 = k' <;> simp [lookupKey, hp, ih]

/-- C9.  Unknown top-level keys are ignored: inserting a binding for any key
that is none of the recognized top-level keys (neither a field alias nor a
field name) anywhere into a valid document leaves validation successful with
the same instance, hence also the same serialization. -/
theorem claim_C9 {l1 l2 : List (String × JVal)} {k : String} {jv : JVal}
    {v : VariantsSchema}
    (hk : k ∉ ["default-priorities", "default_priorities", "providers",
               "static-properties", "static_properties", "variants"])
    (h : VariantsSchema.model_validate (.obj (l1 ++ l2)) = .ok v) :
    VariantsSchema.model_validate (.obj (l1 ++ (k, jv) :: l2)) = .ok v
    ∧ (VariantsSchema.model_validate (.obj (l1 ++ (k, jv) :: l2))).map
        VariantsSchema.model_dump = .ok v.model_dump := by
  simp only [List.mem_cons, List.not_mem_nil, or_false, not_or] at hk
  obtain ⟨n1, n2, n3, n4, n5, n6⟩ := hk
  simp only [VariantsSchema.model_validate, lookupField] at h ⊢
  rw [lookupKey_ins jv l1 l2 (Ne.symm n1), lookupKey_ins jv l1 l2 (Ne.symm n2),
      lookupKey_ins jv l1 l2 (Ne.symm n3), lookupKey_ins jv l1 l2 (Ne.symm n4),
      lookupKey_ins jv l1 l2 (Ne.symm n5), lookupKey_ins jv l1 l2 (Ne.symm n6)]
  refine ⟨h, ?_⟩
  rw [h]
  rfl

/-- C9 witness: prepending an unrecognized key to the example document
leaves validation successful with the same instance. -/
theorem claim_C9_witness :
    VariantsSchema.model_validate
      (.obj (([] : List (String × JVal)) ++ ("extra-key", .num 3) :: exampleDocFields)) =
      .ok exampleParsed
    ∧ (VariantsSchema.model_validate
        (.obj (([] : List (String × JVal)) ++ ("extra-key", .num 3) :: exampleDocFields))).map
        VariantsSchema.model_dump = .ok exampleParsed.model_dump :=
  @claim_C9 [] exampleDocFields "extra-key" (.num 3) exampleParsed (by decide) rfl

/-! ## Schema emitter (`regenerate_json_schema`, schema.py lines 320-339)

The emitter serializes a JSON value with `json.dumps(schema, indent=indent)`.
With an `indent` argument, `json.dumps` uses separators `(',', ': ')`, puts
every container item on its own line indented by `(depth+1)*indent` spaces,
closes containers on a line indented by `depth*indent` spaces, renders empty
containers inline as `[]` / `\x7b\x7d`, and escapes strings with
`ensure_ascii=True` (lowercase `\uXXXX` hex escapes). -/

/-- Lowercase hexadecimal digit. -/
def hexDigit (n : Nat) : Char :=
  if n < 10 then Char.ofNat (48 + n) else Char.ofNat (87 + n)

/-- JSON `\uXXXX` escape of a code unit. -/
def uEscape (n : Nat) : List Char :=
  ['\\', 'u', hexDigit (n / 4096 % 16), hexDigit (n / 256 % 16),
   hexDigit (n / 16 % 16), hexDigit (n % 16)]

/-- Escape of one character, as `json.dumps` with `ensure_ascii=True` does
(two-character escapes for the common controls, `\uXXXX` for the other
controls and all non-ASCII code points, surrogate pairs beyond the BMP). -/
def escChar (c : Char) : List Char :=
  if c = '"' then ['\\', '"']
  else if c = '\\' then ['\\', '\\']
  else if c = '\n' then ['\\', 'n']
  else if c = '\r' then ['\\', 'r']
  else if c = '\t' then ['\\', 't']
  else if c = Char.ofNat 8 then ['\\', 'b']
  else if c = Char.ofNat 12 then ['\\', 'f']
  else if c.toNat < 32 then uEscape c.toNat
  else if c.toNat < 127 then [c]
  else if c.toNat < 65536 then uEscape c.toNat
  else
    uEscape (55296 + (c.toNat - 65536) / 1024) ++
      uEscape (56320 + (c.toNat - 65536) % 1024)

/-- String-body escaping. -/
def escape (l : List Char) : List Char := (l.map escChar).flatten

/-- Quoted, escaped JSON string token. -/
def quoteTok (s : String) : List Char := '"' :: (escape s.data ++ ['"'])

def boolTok : Bool → List Char
  | true => "true".data
  | false => "false".data

def nullTok : List Char := "null".data

def numTok (n : Nat) : List Char := (Nat.repr n).data

/-- Indentation padding. -/
def pad (n : Nat) : List Char := List.replicate n ' '

/-- Item separator of `json.dumps` in indent mode: `','` then newline. -/
def sepTok : List Char := [',', '\n']

/-- Join non-empty rendered pieces with a separator. -/
def joinSep (sep : List Char) : List (List Char) → List Char
  | [] => []
  | [x] => x
  | x :: y :: rest => x ++ sep ++ joinSep sep (y :: rest)

mutual

/-- Rendering of one JSON value at depth `d` with indent width `i`
(`json.dumps(v, indent=i)` renders `v` as `render v i 0`). -/
def render (v : JVal) (i d : Nat) : List Char :=
  match v with
  | .str s => quoteTok s
  | .jbool b => boolTok b
  | .num n => numTok n
  | .null => nullTok
  | .arr [] => ['[', ']']
  | .arr (x :: xs) =>
    '[' :: '\n' :: (joinSep sepTok (renderItems (x :: xs) i (d + 1)) ++
      '\n' :: (pad (d * i) ++ [']']))
  | .obj [] => ['\x7b', '\x7d']
  | .obj (f :: fs) =>
    '\x7b' :: '\n' :: (joinSep sepTok (renderFields (f :: fs) i (d + 1)) ++
      '\n' :: (pad (d * i) ++ ['\x7d']))

/-- Rendered array items, one piece per item, each indented. -/
def renderItems (items : List JVal) (i d : Nat) : List (List Char) :=
  match items with
  | [] => []
  | x :: xs => (pad (d * i) ++ render x i d) :: renderItems xs i d

/-- Rendered object entries, one piece per entry, each indented, with the
`': '` key separator. -/
def renderFields (fields : List (String × JVal)) (i d : Nat) :
    List (List Char) :=
  match fields with
  | [] => []
  | (k, v) :: fs =>
    (pad (d * i) ++ (quoteTok k ++ ':' :: ' ' :: render v i d)) ::
      renderFields fs i d

end

/-- `json.dumps(v, indent=i)`. -/
def dumps (v : JVal) (i : Nat) : String := String.mk (render v i 0)

/-! ## Contiguous-substring theory

`SubSeg m l` holds when `m` occurs contiguously inside `l`.  It is used to
state which byte strings occur verbatim in the emitted schema text. -/

def SubSeg (m l : List Char) : Prop := ∃ s t, s ++ m ++ t = l

/-- Boolean test: `m` is a prefix of `l`. -/
def prefB : List Char → List Char → Bool
  | [], _ => true
  | _ :: _, [] => false
  | a :: as, b :: bs => a == b && prefB as bs

/-- Boolean test for `SubSeg`. -/
def subsegB (m : List Char) : List Char → Bool
  | [] => prefB m []
  | l@(_ :: ls) => prefB m l || subsegB m ls

theorem prefB_iff {m l : List Char} : prefB m l = true ↔ ∃ t, m ++ t = l := by
  induction m generalizing l with
  | nil => simp [prefB]
  | cons a as ih =>
    cases l with
    | nil => simp [prefB]
    | cons b bs =>
      simp only [prefB, Bool.and_eq_true, beq_iff_eq, ih, List.cons_append,
        List.cons.injEq]
      constructor
      · rintro ⟨hab, t, ht⟩
        exact ⟨t, hab, ht⟩
      · rintro ⟨t, hab, ht⟩
        exact ⟨hab, t, ht⟩

theorem subsegB_iff {m l : List Char} : subsegB m l = true ↔ SubSeg m l := by
  induction l with
  | nil =>
    simp only [subsegB, prefB_iff, SubSeg]
    constructor
    · rintro ⟨t, ht⟩
      exact ⟨[], t, by simp [ht]⟩
    · rintro ⟨s, t, h⟩
      rcases List.append_eq_nil.mp h with ⟨hs, h2⟩
      rcases List.append_eq_nil.mp hs with ⟨h3, h4⟩
      exact ⟨[], by simp [h2, h4]⟩
  | cons c cs ih =>
    simp only [subsegB, Bool.or_eq_true, prefB_iff, ih, SubSeg]
    constructor
    · rintro (⟨t, ht⟩ | ⟨s, t, h⟩)
      · exact ⟨[], t, by simp [ht]⟩
      · exact ⟨c :: s, t, by simp [h]⟩
    · rintro ⟨s, t, h⟩
      cases s with
      | nil => exact .inl ⟨t, by simpa using h⟩
      | cons c' s' =>
        right
        injection h with h1 h2
        exact ⟨s', t, h2⟩

theorem subseg_refl (m : List Char) : SubSeg m m := ⟨[], [], by simp⟩

theorem subseg_trans {a b c : List Char} (h1 : SubSeg a b) (h2 : SubSeg b c) :
    SubSeg a c := by
  obtain ⟨s1, t1, e1⟩ := h1
  obtain ⟨s2, t2, e2⟩ := h2
  exact ⟨s2 ++ s1, t1 ++ t2, by rw [← e2, ← e1]; simp⟩

theorem subseg_extend {m l : List Char} (x y : List Char) (h : SubSeg m l) :
    SubSeg m (x ++ l ++ y) :=
  subseg_trans h ⟨x, y, rfl⟩

theorem subseg_nil {m : List Char} (h : SubSeg m []) : m = [] := by
  obtain ⟨s, t, e⟩ := h
  rcases List.append_eq_nil.mp e with ⟨h1, h2⟩
  exact (List.append_eq_nil.mp h1).2

theorem subseg_mem {m l : List Char} (h : SubSeg m l) {c : Char} (hc : c ∈ m) :
    c ∈ l := by
  obtain ⟨s, t, e⟩ := h
  rw [← e]
  simp [hc]

theorem pref_split {m t a b : List Char} (h : m ++ t = a ++ b) :
    (∃ u, m ++ u = a) ∨ (∃ m2, m = a ++ m2 ∧ ∃ u, m2 ++ u = b) := by
  induction a generalizing m with
  | nil => exact .inr ⟨m, by simp, t, h⟩
  | cons x a' ih =>
    cases m with
    | nil => exact .inl ⟨x :: a', by simp⟩
    | cons y m' =>
      injection h with h1 h2
      subst h1
      rcases ih h2 with ⟨u, hu⟩ | ⟨m2, hm2, u, hu⟩
      · exact .inl ⟨u, by rw [← hu]; rfl⟩
      · exact .inr ⟨m2, by rw [hm2]; rfl, u, hu⟩

theorem subseg_split {m a b : List Char} (h : SubSeg m (a ++ b)) :
    SubSeg m a ∨ SubSeg m b ∨
      ∃ m1 m2, m = m1 ++ m2 ∧ m1 ≠ [] ∧ m2 ≠ [] ∧
        (∃ s, s ++ m1 = a) ∧ (∃ t, m2 ++ t = b) := by
  obtain ⟨s, t, e⟩ := h
  rcases pref_split (m := s) (t := m ++ t) (by simpa using e) with
    ⟨u, hu⟩ | ⟨s2, hs2, u, hu⟩
  · -- s ++ u = a, and then a ++ b = s ++ m ++ t forces m ++ t = u ++ b
    have hb : m ++ t = u ++ b := by
      have := e
      rw [← hu] at this
      simpa using this
    rcases pref_split hb with ⟨w, hw⟩ | ⟨m2, hm2, w, hw⟩
    · exact .inl ⟨s, w, by rw [← hu, ← hw]; simp⟩
    · cases m2 with
      | nil =>
        simp only [List.append_nil] at hm2
        exact .inl ⟨s, [], by rw [← hu, ← hm2]; simp⟩
      | cons c m2' =>
        cases u with
        | nil =>
          right; left
          exact ⟨[], w, by simpa [hm2] using hw⟩
        | cons d u' =>
          right; right
          refine ⟨d :: u', c :: m2', hm2, by simp, by simp,
            ⟨s, by rw [← hu]⟩, ⟨w, hw⟩⟩
  · -- s = a ++ s2 : the occurrence lies entirely inside b
    right; left
    have hb : s2 ++ m ++ t = b := by
      have := e
      rw [hs2] at this
      simpa using this
    exact ⟨s2, t, hb⟩

/-! ## Boundary characters

Every concatenation point in the output of `render` is adjacent to one of
these structural characters, so a nonempty pattern containing none of them
occurs in the output only inside a single atomic token. -/

def bnd (c : Char) : Bool :=
  c = '"' || c = ',' || c = ':' || c = '[' || c = ']' ||
    c = '\x7b' || c = '\x7d' || c = ' ' || c = '\n' || c = '\\'

def Clean (m : List Char) : Prop := ∀ c ∈ m, bnd c = false

theorem subseg_cons_bnd {m : List Char} {c : Char} {l : List Char}
    (hm : m ≠ []) (hc : Clean m) (hb : bnd c = true) :
    SubSeg m (c :: l) → SubSeg m l := by
  rintro ⟨s, t, e⟩
  cases s with
  | nil =>
    cases m with
    | nil => exact absurd rfl hm
    | cons d m' =>
      injection e with h1 h2
      subst h1
      have hcd := hc d (by simp)
      rw [hb] at hcd
      cases hcd
  | cons c' s' =>
    injection e with h1 h2
    exact ⟨s', t, h2⟩

theorem subseg_peel {m w l : List Char} (hm : m ≠ []) (hc : Clean m)
    (hw : ∀ c ∈ w, bnd c = true) (h : SubSeg m (w ++ l)) : SubSeg m l := by
  induction w with
  | nil => simpa using h
  | cons c w' ih =>
    refine ih (fun d hd => hw d (by simp [hd])) ?_
    exact subseg_cons_bnd hm hc (hw c (by simp)) (by simpa using h)

theorem subseg_not_all_bnd {m l : List Char} (hm : m ≠ []) (hc : Clean m)
    (hl : ∀ c ∈ l, bnd c = true) : ¬ SubSeg m l := by
  intro h
  cases m with
  | nil => exact absurd rfl hm
  | cons c m' =>
    have h1 := hl c (subseg_mem h (by simp))
    have h2 := hc c (by simp)
    rw [h1] at h2
    cases h2

theorem subseg_append_bnd {m a : List Char} {c : Char} {b : List Char}
    (hm : m ≠ []) (hc : Clean m) (hb : bnd c = true)
    (h : SubSeg m (a ++ c :: b)) : SubSeg m a ∨ SubSeg m (c :: b) := by
  rcases subseg_split h with h1 | h1 | ⟨m1, m2, hm12, hn1, hn2, hsa, ht, hpb⟩
  · exact .inl h1
  · exact .inr h1
  · exfalso
    cases m2 with
    | nil => exact absurd rfl hn2
    | cons d m2' =>
      injection hpb with h1 h2
      subst h1
      have hcd := hc d (by simp [hm12])
      rw [hb] at hcd
      cases hcd

theorem subseg_joinSep {m : List Char} (hm : m ≠ []) (hc : Clean m)
    {ps : List (List Char)} (h : SubSeg m (joinSep sepTok ps)) :
    ∃ p ∈ ps, SubSeg m p := by
  induction ps with
  | nil => exact absurd (subseg_nil h) hm
  | cons x ps ih =>
    cases ps with
    | nil => exact ⟨x, by simp, h⟩
    | cons y rest =>
      have h' : SubSeg m (x ++ ',' :: ('\n' :: joinSep sepTok (y :: rest))) := by
        simpa [joinSep, sepTok] using h
      rcases subseg_append_bnd hm hc (by decide) h' with h1 | h1
      · exact ⟨x, by simp, h1⟩
      · have h2 := subseg_cons_bnd hm hc (by decide) h1
        have h3 := subseg_cons_bnd hm hc (by decide) h2
        obtain ⟨p, hp, hsp⟩ := ih h3
        exact ⟨p, by simp [List.mem_cons.mp hp], hsp⟩

theorem pad_all_bnd {n : Nat} : ∀ c ∈ pad n, bnd c = true := by
  intro c hcm
  rw [List.eq_of_mem_replicate hcm]
  decide

theorem bnd_closer {n : Nat} {br : Char} (hbr : bnd br = true) :
    ∀ c ∈ ('\n' :: (pad n ++ [br])), bnd c = true := by
  intro c hcm
  rcases List.mem_cons.mp hcm with rfl | hcm
  · decide
  · rcases List.mem_append.mp hcm with hcm | hcm
    · rw [List.eq_of_mem_replicate hcm]; decide
    · rw [List.mem_singleton.mp hcm]; exact hbr

/-! ## Atomic tokens of a rendered JSON value -/

mutual

/-- Atomic tokens (quoted strings, booleans, numerals, nulls) of a value;
every clean occurrence in the rendered output lies inside one of them. -/
def tokens : JVal → List (List Char)
  | .str s => [quoteTok s]
  | .jbool b => [boolTok b]
  | .num n => [numTok n]
  | .null => [nullTok]
  | .arr items => tokensItems items
  | .obj fields => tokensFields fields

def tokensItems : List JVal → List (List Char)
  | [] => []
  | x :: xs => tokens x ++ tokensItems xs

def tokensFields : List (String × JVal) → List (List Char)
  | [] => []
  | (k, v) :: fs => quoteTok k :: (tokens v ++ tokensFields fs)

end

mutual

/-- Every occurrence of a nonempty boundary-free pattern in rendered output
lies inside one of the atomic tokens. -/
theorem render_clean_token {m : List Char} (hm : m ≠ []) (hc : Clean m) :
    ∀ (v : JVal) (i d : Nat), SubSeg m (render v i d) →
      ∃ t ∈ tokens v, SubSeg m t := by
  intro v i d h
  match v with
  | .str s => exact ⟨quoteTok s, by simp [tokens], by simpa [render] using h⟩
  | .jbool b => exact ⟨boolTok b, by simp [tokens], by simpa [render] using h⟩
  | .num n => exact ⟨numTok n, by simp [tokens], by simpa [render] using h⟩
  | .null => exact ⟨nullTok, by simp [tokens], by simpa [render] using h⟩
  | .arr [] =>
    exact absurd (by simpa [render] using h)
      (subseg_not_all_bnd hm hc (by decide))
  | .arr (x :: xs) =>
    simp only [render] at h
    have h1 := subseg_cons_bnd hm hc (by decide) h
    have h2 := subseg_cons_bnd hm hc (by decide) h1
    rcases subseg_append_bnd hm hc (by decide) h2 with h3 | h3
    · obtain ⟨p, hp, hsp⟩ := subseg_joinSep hm hc h3
      obtain ⟨t, ht, hst⟩ :=
        renderItems_clean_token hm hc (x :: xs) i (d + 1) p hp hsp
      exact ⟨t, by simpa [tokens] using ht, hst⟩
    · exact absurd h3 (subseg_not_all_bnd hm hc (bnd_closer (by decide)))
  | .obj [] =>
    exact absurd (by simpa [render] using h)
      (subseg_not_all_bnd hm hc (by decide))
  | .obj (f :: fs) =>
    simp only [render] at h
    have h1 := subseg_cons_bnd hm hc (by decide) h
    have h2 := subseg_cons_bnd hm hc (by decide) h1
    rcases subseg_append_bnd hm hc (by decide) h2 with h3 | h3
    · obtain ⟨p, hp, hsp⟩ := subseg_joinSep hm hc h3
      obtain ⟨t, ht, hst⟩ :=
        renderFields_clean_token hm hc (f :: fs) i (d + 1) p hp hsp
      exact ⟨t, by simpa [tokens] using ht, hst⟩
    · exact absurd h3 (subseg_not_all_bnd hm hc (bnd_closer (by decide)))

theorem renderItems_clean_token {m : List Char} (hm : m ≠ []) (hc : Clean m) :
    ∀ (items : List JVal) (i d : Nat) (p : List Char),
      p ∈ renderItems items i d → SubSeg m p →
        ∃ t ∈ tokensItems items, SubSeg m t := by
  intro items i d p hp hsp
  match items with
  | [] => cases hp
  | x :: xs =>
    simp only [renderItems] at hp
    rcases List.mem_cons.mp hp with rfl | hp2
    · have h1 := subseg_peel hm hc pad_all_bnd hsp
      obtain ⟨t, ht, hst⟩ := render_clean_token hm hc x i d h1
      exact ⟨t, by simp [tokensItems, ht], hst⟩
    · obtain ⟨t, ht, hst⟩ := renderItems_clean_token hm hc xs i d p hp2 hsp
      exact ⟨t, by simp [tokensItems, ht], hst⟩

theorem renderFields_clean_token {m : List Char} (hm : m ≠ []) (hc : Clean m) :
    ∀ (fields : List (String × JVal)) (i d : Nat) (p : List Char),
      p ∈ renderFields fields i d → SubSeg m p →
        ∃ t ∈ tokensFields fields, SubSeg m t := by
  intro fields i d p hp hsp
  match fields with
  | [] => cases hp
  | (k, v) :: fs =>
    simp only [renderFields] at hp
    rcases List.mem_cons.mp hp with rfl | hp2
    · have h1 := subseg_peel hm hc pad_all_bnd hsp
      rcases subseg_append_bnd hm hc (by decide) h1 with h2 | h2
      · exact ⟨quoteTok k, by simp [tokensFields], h2⟩
      · have h3 := subseg_cons_bnd hm hc (by decide) h2
        have h4 := subseg_cons_bnd hm hc (by decide) h3
        obtain ⟨t, ht, hst⟩ := render_clean_token hm hc v i d h4
        exact ⟨t, by simp [tokensFields, ht], hst⟩
    · obtain ⟨t, ht, hst⟩ := renderFields_clean_token hm hc fs i d p hp2 hsp
      exact ⟨t, by simp [tokensFields, ht], hst⟩

end

/-! ## Positive containment: a field value occurs in the rendered object -/

theorem joinSep_mem_subseg {p : List Char} {ps : List (List Char)}
    (hp : p ∈ ps) (sep : List Char) : SubSeg p (joinSep sep ps) := by
  induction ps with
  | nil => cases hp
  | cons x ps ih =>
    cases ps with
    | nil =>
      rw [List.mem_singleton.mp hp]
      exact subseg_refl x
    | cons y rest =>
      rcases List.mem_cons.mp hp with rfl | hp2
      · exact ⟨[], sep ++ joinSep sep (y :: rest), by simp [joinSep]⟩
      · exact subseg_trans (ih hp2) ⟨x ++ sep, [], by simp [joinSep]⟩

theorem renderFields_mem {k : String} {v : JVal}
    {fields : List (String × JVal)} (h : (k, v) ∈ fields) (i d : Nat) :
    (pad (d * i) ++ (quoteTok k ++ ':' :: ' ' :: render v i d)) ∈
      renderFields fields i d := by
  induction fields with
  | nil => cases h
  | cons f fs ih =>
    obtain ⟨k', v'⟩ := f
    rcases List.mem_cons.mp h with he | h2
    · cases he
      simp [renderFields]
    · simp only [renderFields]
      exact List.mem_cons_of_mem _ (ih h2)

/-- A string-valued field of an object occurs (escaped) verbatim in the
rendered output, at every indent width and depth. -/
theorem obj_field_str_subseg {fields : List (String × JVal)} {k s : String}
    (hmem : (k, .str s) ∈ fields) (i d : Nat) :
    SubSeg (escape s.data) (render (.obj fields) i d) := by
  cases fields with
  | nil => cases hmem
  | cons f fs =>
    have hp := renderFields_mem hmem i (d + 1)
    have h1 : SubSeg (escape s.data)
        (pad ((d + 1) * i) ++ (quoteTok k ++ ':' :: ' ' :: render (.str s) i (d + 1))) := by
      refine ⟨pad ((d + 1) * i) ++ quoteTok k ++ [':', ' ', '"'], ['"'], ?_⟩
      simp [render, quoteTok]
    have h2 := joinSep_mem_subseg hp sepTok
    have h3 : SubSeg (joinSep sepTok (renderFields (f :: fs) i (d + 1)))
        (render (.obj (f :: fs)) i d) := by
      refine ⟨['\x7b', '\n'], '\n' :: (pad (d * i) ++ ['\x7d']), ?_⟩
      simp [render]
    exact subseg_trans (subseg_trans h1 h2) h3

/-! ## The emitter of schema.py -/

/-- Python dict assignment `d[k] = v`: replace in place if the key is
present, else append at the end. -/
def setKey (l : List (String × JVal)) (k : String) (v : JVal) :
    List (String × JVal) :=
  match l with
  | [] => [(k, v)]
  | (k', v') :: rest => if k' = k then (k, v) :: rest else (k', v') :: setKey rest k v

theorem setKey_mem (l : List (String × JVal)) (k : String) (v : JVal) :
    (k, v) ∈ setKey l k v := by
  induction l with
  | nil => simp [setKey]
  | cons p rest ih =>
    obtain ⟨k', v'⟩ := p
    by_cases hk : k' = k <;> simp [setKey, hk, ih]

theorem setKey_mem_of {l : List (String × JVal)} {k' : String} {v' : JVal}
    (k : String) (v : JVal) (h : (k', v') ∈ l) (hne : k' ≠ k) :
    (k', v') ∈ setKey l k v := by
  induction l with
  | nil => cases h
  | cons p rest ih =>
    obtain ⟨k'', v''⟩ := p
    rcases List.mem_cons.mp h with he | h2
    · cases he
      simp [setKey, hne]
    · by_cases hk : k'' = k <;> simp [setKey, hk, ih h2, Or.inr h2]

/-- Modelled from the spec: the output of pydantic's
`VariantsSchema.model_json_schema(by_alias=True, mode="serialization")`
(library code, not part of src/schema.py).  Per the spec (sections 4.4 and
6) it is a draft-2020-12-compatible JSON Schema document reflecting the
field layout of section 3, with titles and the field descriptions of the
models; per the spec, the three metadata constants are NOT part of it (they
are added afterwards by the emitter only when metadata is requested).  The
exact nested layout is representative of pydantic output ($defs for the two
nested models, properties under their aliases, required lists, a top-level
title "VariantsSchema"); the claims under verification depend only on the
emitter logic and on the absence of the three metadata constants from this
document. -/
def model_json_schema_fields : List (String × JVal) :=
  [("$defs", .obj
     [("DefaultPriorities", .obj
        [("description", .str "Default provider priorities configuration."),
         ("properties", .obj
           [("namespace", .obj
              [("description", .str "Default namespace priorities"),
               ("items", .obj [("type", .str "string")]),
               ("minItems", .num 1),
               ("title", .str "Namespace"),
               ("type", .str "array")]),
            ("feature", .obj
              [("anyOf", .arr
                 [.obj [("additionalProperties", .obj
                          [("items", .obj [("type", .str "string")]),
                           ("type", .str "array")]),
                        ("type", .str "object")],
                  .obj [("type", .str "null")]]),
               ("default", .null),
               ("description", .str "Default feature priorities (by namespace)"),
               ("title", .str "Feature")]),
            ("property", .obj
              [("anyOf", .arr
                 [.obj [("additionalProperties", .obj
                          [("additionalProperties", .obj
                             [("items", .obj [("type", .str "string")]),
                              ("type", .str "array")]),
                           ("type", .str "object")]),
                        ("type", .str "object")],
                  .obj [("type", .str "null")]]),
               ("default", .null),
               ("description", .str "Default property priorities (by namespace)"),
               ("title", .str "Property")])]),
         ("required", .arr [.str "namespace"]),
         ("title", .str "DefaultPriorities"),
         ("type", .str "object")]),
      ("Provider", .obj
        [("description", .str "Provider information."),
         ("properties", .obj
           [("plugin-api", .obj
              [("anyOf", .arr [.obj [("type", .str "string")],
                               .obj [("type", .str "null")]]),
               ("default", .null),
               ("description", .str "Object reference to plugin class"),
               ("title", .str "Plugin-Api")]),
            ("enable-if", .obj
              [("anyOf", .arr [.obj [("minLength", .num 1),
                                     ("type", .str "string")],
                               .obj [("type", .str "null")]]),
               ("default", .null),
               ("description",
                .str "Environment marker specifying when to enable the plugin"),
               ("title", .str "Enable-If")]),
            ("install-time", .obj
              [("default", .jbool true),
               ("description", .str "Whether a plugin is used at install time"),
               ("title", .str "Install-Time"),
               ("type", .str "boolean")]),
            ("optional", .obj
              [("default", .jbool false),
               ("description", .str "Whether the provider is optional"),
               ("title", .str "Optional"),
               ("type", .str "boolean")]),
            ("requires", .obj
              [("anyOf", .arr
                 [.obj [("items", .obj [("type", .str "string")]),
                        ("type", .str "array")],
                  .obj [("type", .str "null")]]),
               ("default", .null),
               ("description",
                .str "Dependency specifiers for how to install the plugin"),
               ("title", .str "Requires")])]),
         ("title", .str "Provider"),
         ("type", .str "object")])]),
   ("description", .str "Combined index metadata for wheel variants."),
   ("properties", .obj
     [("default-priorities", .obj
        [("$ref", .str "#/$defs/DefaultPriorities"),
         ("description", .str "Default provider priorities")]),
      ("providers", .obj
        [("additionalProperties", .obj [("$ref", .str "#/$defs/Provider")]),
         ("description", .str "Mapping of namespaces to provider information"),
         ("title", .str "Providers"),
         ("type", .str "object")]),
      ("static-properties", .obj
        [("anyOf", .arr
           [.obj [("additionalProperties", .obj
                    [("additionalProperties", .obj
                       [("items", .obj [("type", .str "string")]),
                        ("type", .str "array")]),
                     ("type", .str "object")]),
                  ("type", .str "object")],
            .obj [("type", .str "null")]]),
         ("default", .null),
         ("description", .str "Static properties for AoT providers (by namespace)"),
         ("title", .str "Static-Properties")]),
      ("variants", .obj
        [("additionalProperties", .obj
           [("additionalProperties", .obj
              [("additionalProperties", .obj
                 [("items", .obj [("type", .str "string")]),
                  ("type", .str "array")]),
               ("type", .str "object")]),
            ("type", .str "object")]),
         ("description", .str "Mapping of variant labels to properties"),
         ("title", .str "Variants"),
         ("type", .str "object")])]),
   ("required", .arr [.str "default-priorities", .str "providers", .str "variants"]),
   ("title", .str "VariantsSchema"),
   ("type", .str "object")]

/-- Constant `$schema` value of `regenerate_json_schema` (line 335). -/
def SCHEMA_DIALECT : String := "https://json-schema.org/draft/2020-12/schema"

/-- Constant `$id` value of `regenerate_json_schema` (line 336). -/
def SCHEMA_ID : String := "https://wheelnext.dev/variants.json"

/-- Constant `title` value of `regenerate_json_schema` (line 337). -/
def SCHEMA_TITLE : String := "\x7bname\x7d-\x7bversion\x7d-variants.json"

/-- The top-level object after the three metadata assignments of
`regenerate_json_schema`: `$schema` and `$id` are new keys (appended in
assignment order), `title` replaces the existing pydantic title in place. -/
def metadataFields : List (String × JVal) :=
  setKey (setKey (setKey model_json_schema_fields
    "$schema" (.str SCHEMA_DIALECT)) "$id" (.str SCHEMA_ID))
    "title" (.str SCHEMA_TITLE)

/-- Function `regenerate_json_schema` (schema.py lines 320-339): generate
the JSON schema from the pydantic model, optionally add the three constant
metadata fields, and serialize with `json.dumps(schema, indent=indent)`. -/
def regenerate_json_schema (indent : Nat) (include_metadata : Bool) : String :=
  let schema := model_json_schema_fields
  let schema := if include_metadata then metadataFields else schema
  dumps (.obj schema) indent

/-! ## Claims C6 and C7: the emitted schema text -/

theorem not_subseg_of_all {m : List Char} {ts : List (List Char)}
    (hall : ts.all (fun t => !(subsegB m t)) = true) :
    ∀ t ∈ ts, ¬ SubSeg m t := by
  intro t ht hs
  have h1 := List.all_eq_true.mp hall t ht
  rw [subsegB_iff.mpr hs] at h1
  cases h1

/-- Boundary-free marker inside `SCHEMA_DIALECT`. -/
def marker1 : List Char := "json-schema.org".data

/-- Boundary-free marker inside `SCHEMA_ID`. -/
def marker2 : List Char := "wheelnext.dev".data

/-- Boundary-free marker inside `SCHEMA_TITLE`. -/
def marker3 : List Char := "-variants.json".data

/-- If a boundary-free marker inside a constant occurs in none of the atomic
tokens of the base schema, the constant does not occur in the rendered base
schema at any indent width. -/
theorem const_not_in_base {c mk : List Char} (hmne : mk ≠ []) (hcl : Clean mk)
    (hsub : SubSeg mk c)
    (hall : (tokens (.obj model_json_schema_fields)).all
      (fun t => !(subsegB mk t)) = true) (i : Nat) :
    ¬ SubSeg c (render (.obj model_json_schema_fields) i 0) := by
  intro h
  have h2 := subseg_trans hsub h
  obtain ⟨t, ht, hst⟩ := render_clean_token hmne hcl _ i 0 h2
  exact not_subseg_of_all hall t ht hst

set_option maxHeartbeats 2000000 in
theorem marker1_not_in_base :
    (tokens (.obj model_json_schema_fields)).all
      (fun t => !(subsegB marker1 t)) = true := by decide

set_option maxHeartbeats 2000000 in
theorem marker2_not_in_base :
    (tokens (.obj model_json_schema_fields)).all
      (fun t => !(subsegB marker2 t)) = true := by decide

set_option maxHeartbeats 2000000 in
theorem marker3_not_in_base :
    (tokens (.obj model_json_schema_fields)).all
      (fun t => !(subsegB marker3 t)) = true := by decide

/-- C6.  At every indent width, the emitted text contains the three constant
metadata values verbatim when metadata is requested (they are constants of
the emitter, independent of any validated input — the emitter takes no
document), and none of the three values occurs in the output when metadata
is not requested. -/
theorem claim_C6 (i : Nat) :
    (SubSeg SCHEMA_DIALECT.data (regenerate_json_schema i true).data
     ∧ SubSeg SCHEMA_ID.data (regenerate_json_schema i true).data
     ∧ SubSeg SCHEMA_TITLE.data (regenerate_json_schema i true).data)
    ∧ (¬ SubSeg SCHEMA_DIALECT.data (regenerate_json_schema i false).data
     ∧ ¬ SubSeg SCHEMA_ID.data (regenerate_json_schema i false).data
     ∧ ¬ SubSeg SCHEMA_TITLE.data (regenerate_json_schema i false).data) := by
  have hm1 : ("$schema", JVal.str SCHEMA_DIALECT) ∈ metadataFields :=
    setKey_mem_of "title" _
      (setKey_mem_of "$id" _ (setKey_mem _ "$schema" _) (by decide))
      (by decide)
  have hm2 : ("$id", JVal.str SCHEMA_ID) ∈ metadataFields :=
    setKey_mem_of "title" _ (setKey_mem _ "$id" _) (by decide)
  have hm3 : ("title", JVal.str SCHEMA_TITLE) ∈ metadataFields :=
    setKey_mem _ "title" _
  have e1 : escape SCHEMA_DIALECT.data = SCHEMA_DIALECT.data := by decide
  have e2 : escape SCHEMA_ID.data = SCHEMA_ID.data := by decide
  have e3 : escape SCHEMA_TITLE.data = SCHEMA_TITLE.data := by decide
  refine ⟨⟨?_, ?_, ?_⟩, ?_, ?_, ?_⟩
  · exact e1 ▸ obj_field_str_subseg hm1 i 0
  · exact e2 ▸ obj_field_str_subseg hm2 i 0
  · exact e3 ▸ obj_field_str_subseg hm3 i 0
  · exact const_not_in_base (by decide) (by unfold Clean; decide)
      (subsegB_iff.mp (by decide)) marker1_not_in_base i
  · exact const_not_in_base (by decide) (by unfold Clean; decide)
      (subsegB_iff.mp (by decide)) marker2_not_in_base i
  · exact const_not_in_base (by decide) (by unfold Clean; decide)
      (subsegB_iff.mp (by decide)) marker3_not_in_base i

/-- C7.  Schema emission is deterministic: it is a pure function of the two
flags alone (the embedded emitter reads only constants), so two calls with
identical flags produce byte-identical output. -/
theorem claim_C7 (i₁ i₂ : Nat) (m₁ m₂ : Bool) (hi : i₁ = i₂) (hm : m₁ = m₂) :
    regenerate_json_schema i₁ m₁ = regenerate_json_schema i₂ m₂ := by
  subst hi; subst hm; rfl

/-- C7 witness: two calls at the default flags agree. -/
theorem claim_C7_witness :
    regenerate_json_schema 2 true = regenerate_json_schema 2 true :=
  claim_C7 2 2 true true rfl rfl
